/-
Verification of the real-time state-synchronization subsystem of the
WorldCharacters repository.

The development shallowly embeds the relevant source files:
  * colyseus-server/src/schema/Player.ts        (replicated per-player state)
  * colyseus-server/src/rooms/GameRoom.ts       (session/room authority)
  * 3d-viewer/src/player/PlayerController.ts    (local movement + throttle)
  * 3d-viewer/src/player/RemotePlayer.ts        (remote-entity interpolator)
  * 3d-viewer/src/pathfinding/NavMeshBuilder.ts (navigation model)
  * 3d-viewer/src/pathfinding/PathfindingManager.ts (local path planner)

JavaScript floating-point numbers are modelled as exact rationals.  Square
roots never need to be materialised: every comparison of Euclidean
distances in the source is translated to the equivalent comparison of
squared distances, and the sole use of `Math.ceil(distance)` is translated
by an exact integer ceiling-of-square-root function.  The few genuinely
irrational primitives (`Math.cos`/`Math.sin` at multiples of pi/4 inside
`getClosestWalkablePosition`, `Vector3.normalize` inside
`createSimplePath`, and the pi-based angle wrap in the rotation lerp) are
taken as universally quantified parameters, so every theorem below holds
for the true floating-point values of those primitives in particular.
-/
import Mathlib

namespace WorldChars

/-! ## Basic geometry -/

/-- A 3-component vector with rational coordinates (models Babylon
`Vector3` and the raw `x, y, z` number triples of the wire messages). -/
structure Vec3 where
  x : ℚ
  y : ℚ
  z : ℚ
deriving DecidableEq, Repr

/-- Componentwise sum (Babylon `Vector3.add`). -/
def vadd (a b : Vec3) : Vec3 := ⟨a.x + b.x, a.y + b.y, a.z + b.z⟩

/-- Componentwise difference (Babylon `Vector3.subtract`). -/
def vsub (a b : Vec3) : Vec3 := ⟨a.x - b.x, a.y - b.y, a.z - b.z⟩

/-- Scalar multiple (Babylon `Vector3.scale`). -/
def vscale (a : Vec3) (t : ℚ) : Vec3 := ⟨a.x * t, a.y * t, a.z * t⟩

/-- Squared Euclidean distance.  `Vector3.Distance a b` of the source is
`Real.sqrt (distSq a b)`; every comparison of distances in the source is
translated below through this square, which is exact. -/
def distSq (a b : Vec3) : ℚ :=
  (a.x - b.x) ^ 2 + (a.y - b.y) ^ 2 + (a.z - b.z) ^ 2

/-- Squared Euclidean norm (square of Babylon `Vector3.length`). -/
def normSq (a : Vec3) : ℚ := a.x ^ 2 + a.y ^ 2 + a.z ^ 2

/-- Babylon `Vector3.Lerp start end amount = start + (end - start) * amount`,
componentwise. -/
def lerpV (a b : Vec3) (t : ℚ) : Vec3 :=
  ⟨a.x + (b.x - a.x) * t, a.y + (b.y - a.y) * t, a.z + (b.z - a.z) * t⟩

/-- Exact value of `Math.ceil (Real.sqrt q)` for a rational `q ≥ 0`:
the least natural `n` with `q ≤ n ^ 2`.  Used for the `steps` count of
`PathfindingManager.hasLineOfSight`. -/
def natCeilSqrt (q : ℚ) : ℕ :=
  let s := Nat.sqrt (Int.toNat ⌈q⌉)
  if q ≤ (s : ℚ) ^ 2 then s else s + 1

/-! ## Session/Room Authority (colyseus-server)

`Player.ts` declares the replicated per-player schema with its field
defaults; `GameRoom.ts` mutates it in the message handlers and in
`onJoin`/`onLeave`.  `GameState.ts` itself is not among the provided
sources, but its shape is fully determined by its uses in `GameRoom.ts`:
a string-keyed map `players` (get/set/delete) plus a diagnostic
`serverTime` counter.  The map is modelled as an association list whose
most recent binding for a key shadows older ones. -/

/-- The replicated player schema of `Player.ts` (field-for-field). -/
structure Player where
  id : String
  name : String
  modelPath : String
  x : ℚ
  y : ℚ
  z : ℚ
  rotationY : ℚ
  animation : String
  destX : ℚ
  destZ : ℚ
  isMoving : Bool
  timestamp : ℤ
  profileIndex : ℕ
deriving DecidableEq, Repr

/-- The schema defaults declared in `Player.ts`. -/
def defaultPlayer : Player :=
  { id := "", name := "", modelPath := "", x := 0, y := 0, z := 0,
    rotationY := 0, animation := "idle", destX := 0, destZ := 0,
    isMoving := false, timestamp := 0, profileIndex := 0 }

/-- Canonical room state: the `players` map of `GameState` together with
the room-level fields of `GameRoom` (`serverTime` tick counter and the
round-robin `modelIndex`). -/
structure GameRoomState where
  players : List (String × Player)
  serverTime : ℚ
  modelIndex : ℕ
deriving DecidableEq, Repr

/-- Fresh room as produced by `GameRoom.onCreate`. -/
def initRoom : GameRoomState := { players := [], serverTime := 0, modelIndex := 0 }

/-- `this.state.players.get sid`. -/
def lookupPlayer : List (String × Player) → String → Option Player
  | [], _ => none
  | kv :: rest, sid => if kv.1 = sid then some kv.2 else lookupPlayer rest sid

/-- In-place mutation of the entry for `sid` (a no-op when the player is
absent, matching the `if (!player) return` guard of every handler). -/
def updatePlayer (g : GameRoomState) (sid : String) (f : Player → Player) :
    GameRoomState :=
  { g with players := g.players.map (fun kv => if kv.1 = sid then (kv.1, f kv.2) else kv) }

/-- `AREA_SIZE` of the 'move' handler. -/
def AREA_SIZE : ℚ := 50

/-- `Math.max(-AREA_SIZE / 2, Math.min(AREA_SIZE / 2, v))`. -/
def clampToArea (v : ℚ) : ℚ := max (-(AREA_SIZE / 2)) (min (AREA_SIZE / 2) v)

/-- Body of the 'move' handler of `GameRoom.setupMessageHandlers`, acting
on the targeted player (`now` is `Date.now()`). -/
def movePlayer (p : Player) (mx mz : ℚ) (now : ℤ) : Player :=
  { p with
    destX := clampToArea mx, destZ := clampToArea mz,
    isMoving := true, animation := "walk", timestamp := now }

/-- Body of the 'position' handler: the server trusts the client-reported
pose verbatim. -/
def positionPlayer (p : Player) (mx my mz rotY : ℚ) (now : ℤ) : Player :=
  { p with x := mx, y := my, z := mz, rotationY := rotY, timestamp := now }

/-- Body of the 'stop' handler. -/
def stopPlayer (p : Player) : Player :=
  { p with isMoving := false, animation := "idle" }

/-- The 'move' message handler at room level. -/
def onMoveMsg (g : GameRoomState) (sid : String) (mx mz : ℚ) (now : ℤ) :
    GameRoomState :=
  updatePlayer g sid (fun p => movePlayer p mx mz now)

/-- The 'position' message handler at room level. -/
def onPositionMsg (g : GameRoomState) (sid : String) (mx my mz rotY : ℚ)
    (now : ℤ) : GameRoomState :=
  updatePlayer g sid (fun p => positionPlayer p mx my mz rotY now)

/-- The 'stop' message handler at room level. -/
def onStopMsg (g : GameRoomState) (sid : String) : GameRoomState :=
  updatePlayer g sid stopPlayer

/-- `AVAILABLE_MODELS` of `GameRoom.onJoin`. -/
def AVAILABLE_MODELS : List String :=
  ["/models/GreenGuy_Animated.glb", "/models/BusinessMan.glb"]

/-- Spawn coordinate `(Math.random() - 0.5) * spawnRadius` with
`spawnRadius = 10`; the `Math.random()` draw is the parameter `r ∈ [0,1)`. -/
def spawnCoord (r : ℚ) : ℚ := (r - 1 / 2) * 10

/-- `GameRoom.onJoin`.  `nameOpt`/`modelOpt` are the client options
(`none` models a missing/falsy option), `rx`/`rz` the two `Math.random()`
draws.  Note the JavaScript short-circuit
`options.modelPath || AVAILABLE_MODELS[this.modelIndex++ % ...]`:
the round-robin counter advances only when the client did not request a
model.  `profileIndex` is never assigned and keeps its schema default. -/
def onJoin (g : GameRoomState) (sid : String) (nameOpt modelOpt : Option String)
    (rx rz : ℚ) : GameRoomState :=
  let chosen : String × ℕ :=
    match modelOpt with
    | some m => (m, g.modelIndex)
    | none => (AVAILABLE_MODELS.getD (g.modelIndex % AVAILABLE_MODELS.length) "",
               g.modelIndex + 1)
  let p : Player :=
    { defaultPlayer with
      id := sid,
      name := nameOpt.getD ("Player-" ++ sid.take 6),
      modelPath := chosen.1,
      x := spawnCoord rx, y := 0, z := spawnCoord rz,
      animation := "walk", isMoving := false }
  { g with players := (sid, p) :: g.players, modelIndex := chosen.2 }

/-- `GameRoom.onLeave`: `this.state.players.delete sid`. -/
def onLeave (g : GameRoomState) (sid : String) : GameRoomState :=
  { g with players := g.players.filter (fun kv => kv.1 ≠ sid) }

/-- One inbound authority operation (the room is single-threaded, so a
run of the room is a list of these). -/
inductive SOp where
  | join (sid : String) (nameOpt modelOpt : Option String) (rx rz : ℚ)
  | move (sid : String) (mx mz : ℚ) (now : ℤ)
  | pose (sid : String) (mx my mz rotY : ℚ) (now : ℤ)
  | stop (sid : String)
  | leave (sid : String)
deriving DecidableEq, Repr

/-- Dispatch of one operation. -/
def applySOp (g : GameRoomState) : SOp → GameRoomState
  | .join sid nameOpt modelOpt rx rz => onJoin g sid nameOpt modelOpt rx rz
  | .move sid mx mz now => onMoveMsg g sid mx mz now
  | .pose sid mx my mz rotY now => onPositionMsg g sid mx my mz rotY now
  | .stop sid => onStopMsg g sid
  | .leave sid => onLeave g sid

/-- A whole room run from the fresh room. -/
def runOps (ops : List SOp) : GameRoomState := ops.foldl applySOp initRoom

/-- Environment assumptions on one operation: `Math.random()` draws lie in
`[0, 1)`, and a pose intent reports in-bounds `x`/`z` coordinates.  (The
second condition is the amendment of claim C2: the server itself never
clamps reported poses.) -/
def validSOp : SOp → Bool
  | .join _ _ _ rx rz => decide (0 ≤ rx) && decide (rx < 1) && decide (0 ≤ rz) && decide (rz < 1)
  | .pose _ mx _ mz _ _ =>
      decide (-25 ≤ mx) && decide (mx ≤ 25) && decide (-25 ≤ mz) && decide (mz ≤ 25)
  | _ => true

/-- The world-bounds predicate of the spec for the ground coordinates. -/
def inBounds (p : Player) : Prop :=
  -25 ≤ p.x ∧ p.x ≤ 25 ∧ -25 ≤ p.z ∧ p.z ≤ 25

/-- Every player of the canonical map is inside the world bounds. -/
def RoomInBounds (g : GameRoomState) : Prop :=
  ∀ sid p, lookupPlayer g.players sid = some p → inBounds p

/-! ## Local player controller (3d-viewer, `PlayerController.ts`)

Only the members cited by the throttling claims are embedded:
`broadcastPosition`, `followPath` and `stopMovement`.  The controller is
modelled in its multiplayer configuration (`colyseusManager` non-null);
outbound messages are collected in a list. -/

/-- Outbound client messages of `ColyseusManager`
(`sendMoveCommand` / `sendPositionUpdate` / `sendStopCommand`). -/
inductive CMsg where
  | move (mx mz : ℚ)
  | position (mx my mz rotY : ℚ)
  | stop
deriving DecidableEq, Repr

/-- The `PlayerController` fields used by the movement/throttle logic. -/
structure PCState where
  position : Vec3
  rotationY : ℚ
  currentAnimation : String
  walkAnimation : Option String
  walkPlaying : Bool
  path : List Vec3
  currentWaypointIndex : ℕ
  isMoving : Bool
  lastPositionUpdate : ℚ
  positionUpdateInterval : ℚ
deriving DecidableEq, Repr

/-- Constructor state of `PlayerController` (before the model loads;
`positionUpdateInterval = 50` ms, i.e. 20 Hz). -/
def initPC : PCState :=
  { position := ⟨0, 0, 0⟩, rotationY := 0, currentAnimation := "idle",
    walkAnimation := none, walkPlaying := false, path := [],
    currentWaypointIndex := 0, isMoving := false, lastPositionUpdate := 0,
    positionUpdateInterval := 50 }

/-- `PlayerController.broadcastPosition(force)`: emits the pose unless the
unforced call falls inside the throttle window. -/
def broadcastPosition (st : PCState) (force : Bool) (now : ℚ) :
    PCState × List CMsg :=
  if !force && decide (now - st.lastPositionUpdate < st.positionUpdateInterval) then
    (st, [])
  else
    ({ st with lastPositionUpdate := now },
     [CMsg.position st.position.x st.position.y st.position.z st.rotationY])

/-- `PlayerController.followPath`: installs the path, marks the controller
moving and (re)starts the walk animation.  It sends nothing. -/
def followPath (st : PCState) (path : List Vec3) : PCState × List CMsg :=
  let st1 :=
    { st with path := path, currentWaypointIndex := 0, isMoving := true }
  let st2 :=
    match st1.walkAnimation with
    | some nm =>
        if !st1.walkPlaying then
          { st1 with walkPlaying := true, currentAnimation := nm }
        else st1
    | none => st1
  (st2, [])

/-- `PlayerController.stopMovement`: clears the path, stops the walk
animation, notifies the server of the stop, and flushes one final forced
pose broadcast. -/
def stopMovement (st : PCState) (now : ℚ) : PCState × List CMsg :=
  let st1 :=
    { st with isMoving := false, path := [],
              walkPlaying := if st.walkAnimation.isSome && st.walkPlaying then false
                             else st.walkPlaying,
              currentAnimation := "idle" }
  let bp := broadcastPosition st1 true now
  (bp.1, CMsg.stop :: bp.2)

/-- Predicate selecting pose updates among outbound messages. -/
def isPoseMsg : CMsg → Bool
  | .position _ _ _ _ => true
  | _ => false

/-- Number of pose updates in an outbound batch. -/
def countPose (msgs : List CMsg) : ℕ := (msgs.filter isPoseMsg).length

/-! ## Remote-entity interpolator (3d-viewer, `RemotePlayer.ts`)

The interpolator state and its three entry points are embedded:
`receiveUpdate` (LiveKit data-channel path), `updateFromSchema` (Colyseus
path) and the per-frame `update`, plus the tail of `loadModel` that runs
once the visual asset has finished loading.  `mesh ≠ null` and
`modelLoaded` are set at the same point of `loadModel` and are modelled by
the single flag `modelLoaded`.  The pi-based angle normalisation of the
private `lerp` helper is the parameter `wrapPi`. -/

/-- JavaScript `hay.includes(needle)` on strings. -/
def strContains (hay needle : String) : Bool :=
  (List.range (hay.data.length + 1)).any
    (fun i => needle.data.isPrefixOf (hay.data.drop i))

/-- The `RemotePlayer` fields used by interpolation and animation
synchronisation.  `animationGroups` holds the clip names of the loaded
asset; `playingClip` is the clip currently started (if any). -/
structure RPState where
  position : Vec3
  rotation : ℚ
  targetPosition : Vec3
  targetRotation : ℚ
  interpolationSpeed : ℚ
  lastUpdateTime : ℚ
  velocity : Vec3
  enablePrediction : Bool
  modelLoaded : Bool
  currentAnimation : String
  pendingAnimation : Option String
  animationGroups : List String
  playingClip : Option String
deriving DecidableEq, Repr

/-- Constructor state of `RemotePlayer` (interpolation factor 0.15,
prediction on, nothing loaded yet). -/
def initRP : RPState :=
  { position := ⟨0, 0, 0⟩, rotation := 0, targetPosition := ⟨0, 0, 0⟩,
    targetRotation := 0, interpolationSpeed := 3 / 20, lastUpdateTime := 0,
    velocity := ⟨0, 0, 0⟩, enablePrediction := true, modelLoaded := false,
    currentAnimation := "idle", pendingAnimation := none,
    animationGroups := [], playingClip := none }

/-- `RemotePlayer.playAnimation`: selects a clip by name matching
(preferring `Standard_Walk` for walk requests) and records the requested
animation name when a clip was started; falls back to an idle/default
clip for `idle` requests. -/
def playAnimation (st : RPState) (animationName : String) : RPState :=
  if st.animationGroups = [] then st
  else
    let lower := animationName.toLower
    let stopped := { st with playingClip := none }
    let animation : Option String :=
      if strContains lower "walk" then
        match st.animationGroups.find? (fun a => a = "Standard_Walk") with
        | some a => some a
        | none => st.animationGroups.find? (fun a => strContains a.toLower "walk")
      else
        st.animationGroups.find? (fun a => strContains a.toLower lower)
    match animation with
    | some a =>
        { stopped with playingClip := some a, currentAnimation := animationName }
    | none =>
        if animationName = "idle" then
          match st.animationGroups.find?
              (fun a => strContains a.toLower "idle" || strContains a.toLower "default") with
          | some a =>
              { stopped with playingClip := some a, currentAnimation := animationName }
          | none => stopped
        else stopped

/-- Tail of `RemotePlayer.loadModel` after the asset import succeeds:
records the clips, marks the model loaded, stops all clips, then replays
the pending animation if one was requested before loading completed and
otherwise starts the default walk animation. -/
def loadModelComplete (st : RPState) (clips : List String) : RPState :=
  let st1 := { st with animationGroups := clips, modelLoaded := true,
                       playingClip := none }
  match st1.pendingAnimation with
  | some a => { playAnimation st1 a with pendingAnimation := none }
  | none => playAnimation st1 "walk"

/-- `RemotePlayer.receiveUpdate` (LiveKit path): estimates velocity from
the delta to the previous target, stores the new target pose, switches
animation immediately when it differs, and stamps `lastUpdateTime`.
`velocity.length() > 0` style checks do not occur here; the elapsed time
is `(now - lastUpdateTime) / 1000` seconds. -/
def receiveUpdate (st : RPState) (pos : Vec3) (rotY : ℚ) (anim : String)
    (now : ℚ) : RPState :=
  let st1 :=
    if st.enablePrediction && decide (0 < st.lastUpdateTime) then
      let deltaTime := (now - st.lastUpdateTime) / 1000
      if 0 < deltaTime then
        { st with velocity := vscale (vsub pos st.targetPosition) (1 / deltaTime) }
      else st
    else st
  let st2 := { st1 with targetPosition := pos, targetRotation := rotY }
  let st3 := if anim ≠ st2.currentAnimation then playAnimation st2 anim else st2
  { st3 with lastUpdateTime := now }

/-- `RemotePlayer.updateFromSchema` (Colyseus path): stores the new target
pose; a differing (truthy) animation is played at once when the model is
loaded and remembered in `pendingAnimation` otherwise; stamps
`lastUpdateTime`. -/
def updateFromSchema (st : RPState) (sx sy sz rotY : ℚ) (anim : String)
    (now : ℚ) : RPState :=
  let st1 := { st with targetPosition := ⟨sx, sy, sz⟩, targetRotation := rotY }
  let st2 :=
    if anim ≠ "" && anim ≠ st1.currentAnimation then
      if !st1.modelLoaded then { st1 with pendingAnimation := some anim }
      else playAnimation st1 anim
    else st1
  { st2 with lastUpdateTime := now }

/-- `RemotePlayer.update` (per-frame): dead-reckons the target forward
when updates are stale and the estimated speed exceeds the minimum
(`velocity.length() > 0.01`, i.e. squared norm above `1/10000`), then
moves the rendered pose a fixed fraction toward the target.  `wrapPi`
models the pi-based shortest-angle normalisation of the rotation delta. -/
def rpFrameUpdate (wrapPi : ℚ → ℚ) (st : RPState) (deltaTime now : ℚ) :
    RPState :=
  if !st.modelLoaded then st
  else
    let target1 :=
      if st.enablePrediction && decide (100 < now - st.lastUpdateTime)
          && decide (1 / 10000 < normSq st.velocity) then
        vadd st.targetPosition (vscale st.velocity deltaTime)
      else st.targetPosition
    { st with
      targetPosition := target1,
      position := lerpV st.position target1 st.interpolationSpeed,
      rotation := st.rotation
        + wrapPi (st.targetRotation - st.rotation) * st.interpolationSpeed }

/-- `n`-fold repetition of the 0.15-fraction smoothing step toward a fixed
target. -/
def iterLerp : ℕ → Vec3 → Vec3 → Vec3
  | 0, p, _ => p
  | n + 1, p, t => iterLerp n (lerpV p t (3 / 20)) t

/-! ## Navigation model and path planner (3d-viewer)

`NavMeshBuilder` reduces to its obstacle list for the claims at hand
(`isPositionBlocked`/`getObstacles`); the walkable polygons never
influence blocking.  `PathfindingManager` holds an optional builder and
the `isInitialized` flag; `initialize` sets both, so `builder = none`
models the never-initialized manager.  `Math.cos`/`Math.sin` at the eight
sample angles `(i/8) * 2 * pi` and `Vector3.normalize` are the parameters
`cos8`/`sin8`/`nrm`. -/

/-- A registered circular obstacle of `NavMeshBuilder`. -/
structure Obstacle where
  center : Vec3
  radius : ℚ
deriving DecidableEq, Repr

/-- `NavMeshBuilder.isPositionBlocked position safetyMargin`: some
obstacle has `Distance(position, center) < radius + margin`.  In squared
form that comparison is exactly
`0 ≤ radius + margin ∧ distSq < (radius + margin) ^ 2`. -/
def isPositionBlocked (obstacles : List Obstacle) (position : Vec3)
    (safetyMargin : ℚ) : Bool :=
  obstacles.any (fun o =>
    decide (0 ≤ o.radius + safetyMargin)
      && decide (distSq position o.center < (o.radius + safetyMargin) ^ 2))

/-- `PathfindingManager.isWalkable` (default safety margin 1.5). -/
def isWalkable (builder : Option (List Obstacle)) (p : Vec3) : Bool :=
  match builder with
  | none => true
  | some obs => !(isPositionBlocked obs p (3 / 2))

/-- `PathfindingManager.getClosestWalkablePosition`: 8 directions sampled
at integer radii `1, 2, ..., ⌊searchRadius⌋`, first walkable sample wins,
the original point is returned when none is found. -/
def closestWalkable (cos8 sin8 : ℕ → ℚ) (builder : Option (List Obstacle))
    (p : Vec3) (searchRadius : ℚ) : Vec3 :=
  if isWalkable builder p then p
  else
    let samples := 8
    let testPositions :=
      (List.range' 1 (Int.toNat ⌊searchRadius⌋)).flatMap (fun radius =>
        (List.range samples).map (fun i =>
          vadd p ⟨cos8 i * (radius : ℚ), 0, sin8 i * (radius : ℚ)⟩))
    match testPositions.find? (fun t => isWalkable builder t) with
    | some t => t
    | none => p

/-- `PathfindingManager.createSimplePath`: direct path when the midpoint
is free (or no builder/obstacles exist), otherwise a single detour around
the first obstacle on the side closer to the destination.  (`dist1 <
dist2` of the source compares square roots, equivalent to comparing the
squares.) -/
def createSimplePath (nrm : Vec3 → Vec3) (builder : Option (List Obstacle))
    (s e : Vec3) : List Vec3 :=
  match builder with
  | some obs =>
      let midpoint := vscale (vadd s e) (1 / 2)
      if !(isPositionBlocked obs midpoint (3 / 2)) then [e]
      else
        match obs with
        | [] => [e]
        | o :: _ =>
            let toObstacle := vsub o.center s
            let perpendicular := nrm ⟨-toObstacle.z, 0, toObstacle.x⟩
            let waypoint1 := vadd o.center (vscale perpendicular (o.radius + 2))
            let waypoint2 := vsub o.center (vscale perpendicular (o.radius + 2))
            if distSq waypoint1 e < distSq waypoint2 e then [waypoint1, e]
            else [waypoint2, e]
  | none => [e]

/-- The `PathfindingManager` fields relevant to `findPath`. -/
structure PFManager where
  builder : Option (List Obstacle)
  isInitialized : Bool
deriving DecidableEq, Repr

/-- `PathfindingManager.findPath`: uninitialized managers fall back to the
simple path; a blocked destination is snapped via `closestWalkable` and
rejected with `none` when the snapped point is farther than 5 units
(`Distance > 5`, i.e. `distSq > 25`); otherwise a simple obstacle-aware
path is produced.  The `this.builder?.isPositionBlocked(end)` optional
chain is false when the builder is absent. -/
def findPath (cos8 sin8 : ℕ → ℚ) (nrm : Vec3 → Vec3) (m : PFManager)
    (s e : Vec3) : Option (List Vec3) :=
  if !m.isInitialized then some (createSimplePath nrm m.builder s e)
  else
    let blocked :=
      match m.builder with
      | none => false
      | some obs => isPositionBlocked obs e (3 / 2)
    if blocked then
      let walkableEnd := closestWalkable cos8 sin8 m.builder e 5
      if 25 < distSq walkableEnd e then none
      else some (createSimplePath nrm m.builder s walkableEnd)
    else some (createSimplePath nrm m.builder s e)

/-- Origin, the default used for waypoint indexing. -/
def v0 : Vec3 := ⟨0, 0, 0⟩

/-- `PathfindingManager.hasLineOfSight`: samples the segment at
`steps = Math.ceil(distance)` unit-length intervals and requires every
sample unblocked with safety margin 1.0.  The sample point
`start + normalize(end - start) * ((i / steps) * distance)` simplifies
exactly to `start + (end - start) * (i / steps)`.  When `steps = 0`
(coincident endpoints) the single float sample degenerates to NaN, which
is never within any obstacle radius, so the source returns true. -/
def hasLineOfSight (builder : Option (List Obstacle)) (s e : Vec3) : Bool :=
  match builder with
  | none => true
  | some obs =>
      let steps := natCeilSqrt (distSq s e)
      if steps = 0 then true
      else
        (List.range (steps + 1)).all (fun i =>
          !(isPositionBlocked obs (vadd s (vscale (vsub e s) ((i : ℚ) / (steps : ℚ)))) 1))

/-- The backward scan of `smoothPath`:
`for (let i = path.length - 1; i > currentIndex + 1; i--)` returning the
first (largest) `i` with line of sight from `path[currentIndex]` and
defaulting to `currentIndex + 1`.  The argument is the loop counter `i`. -/
def losScan (builder : Option (List Obstacle)) (path : List Vec3) (c : ℕ) :
    ℕ → ℕ
  | 0 => c + 1
  | i + 1 =>
      if i + 1 ≤ c + 1 then c + 1
      else if hasLineOfSight builder (path.getD c v0) (path.getD (i + 1) v0) then i + 1
      else losScan builder path c i

/-- The while-loop of `smoothPath`, with an explicit iteration bound
(`fuel`).  Each pass appends `path[furthestIndex]` and jumps there; the
loop runs while `currentIndex < path.length - 1`, and since the index
strictly increases each pass, `path.length` passes always suffice (the
lemmas below are stated under that sufficiency). -/
def smoothGo (builder : Option (List Obstacle)) (path : List Vec3) :
    ℕ → ℕ → List Vec3
  | 0, _ => []
  | fuel + 1, c =>
      if c < path.length - 1 then
        let f := losScan builder path c (path.length - 1)
        path.getD f v0 :: smoothGo builder path fuel f
      else []

/-- `PathfindingManager.smoothPath`: paths of length at most 2 are
returned unchanged; otherwise the greedy pull-taut scan starting from
`path[0]`. -/
def smoothPath (builder : Option (List Obstacle)) (path : List Vec3) :
    List Vec3 :=
  if path.length ≤ 2 then path
  else path.getD 0 v0 :: smoothGo builder path path.length 0

/-- Every segment of the path passes the line-of-sight sampling (zero
blocked samples at margin 1.0). -/
def segmentsClear (builder : Option (List Obstacle)) : List Vec3 → Bool
  | a :: b :: rest => hasLineOfSight builder a b && segmentsClear builder (b :: rest)
  | _ => true

/-- Every consecutive-waypoint midpoint of the path is unblocked (at the
default safety margin 1.5 used by the planner midpoint test). -/
def midpointsFree (obstacles : List Obstacle) : List Vec3 → Bool
  | a :: b :: rest =>
      !(isPositionBlocked obstacles (vscale (vadd a b) (1 / 2)) (3 / 2))
        && midpointsFree obstacles (b :: rest)
  | _ => true

/-! ## Helper lemmas -/

theorem lookupPlayer_mapUpdate (l : List (String × Player)) (sid sid2 : String)
    (f : Player → Player) :
    lookupPlayer (l.map (fun kv => if kv.1 = sid then (kv.1, f kv.2) else kv)) sid2
      = if sid2 = sid then (lookupPlayer l sid2).map f else lookupPlayer l sid2 := by
  induction l with
  | nil => simp [lookupPlayer]
  | cons kv rest ih =>
      simp only [List.map_cons]
      by_cases h1 : kv.1 = sid
      · rw [if_pos h1]
        by_cases h2 : sid2 = sid
        · subst h2
          rw [lookupPlayer, if_pos h1, lookupPlayer, if_pos h1, if_pos rfl,
            Option.map]
        · have h3 : ¬ kv.1 = sid2 := by rw [h1]; exact fun hc => h2 hc.symm
          rw [lookupPlayer, if_neg h3, lookupPlayer, if_neg h3, ih, if_neg h2]
      · rw [if_neg h1]
        by_cases h2 : kv.1 = sid2
        · have h3 : ¬ sid2 = sid := fun hc => h1 (h2.trans hc)
          rw [lookupPlayer, if_pos h2, lookupPlayer, if_pos h2, if_neg h3]
        · rw [lookupPlayer, if_neg h2, lookupPlayer, if_neg h2, ih]

theorem lookupPlayer_updatePlayer (g : GameRoomState) (sid sid2 : String)
    (f : Player → Player) :
    lookupPlayer (updatePlayer g sid f).players sid2
      = if sid2 = sid then (lookupPlayer g.players sid2).map f
        else lookupPlayer g.players sid2 := by
  simpa [updatePlayer] using lookupPlayer_mapUpdate g.players sid sid2 f

theorem lookupPlayer_filter_ne (l : List (String × Player)) (sid sid2 : String) :
    lookupPlayer (l.filter (fun kv => kv.1 ≠ sid)) sid2
      = if sid2 = sid then none else lookupPlayer l sid2 := by
  induction l with
  | nil => simp [lookupPlayer]
  | cons kv rest ih =>
      by_cases h1 : kv.1 = sid <;> by_cases h2 : kv.1 = sid2 <;>
        simp_all [lookupPlayer, List.filter_cons]

theorem lookupPlayer_cons_self (p : Player) (rest : List (String × Player))
    (sid : String) :
    lookupPlayer ((sid, p) :: rest) sid = some p := by
  simp [lookupPlayer]

theorem clampToArea_mem (v : ℚ) :
    clampToArea v = max (-25) (min 25 v) ∧ -25 ≤ clampToArea v ∧ clampToArea v ≤ 25 := by
  have h : clampToArea v = max (-25) (min 25 v) := by
    unfold clampToArea AREA_SIZE
    norm_num
  refine ⟨h, ?_, ?_⟩
  · rw [h]; exact le_max_left _ _
  · rw [h]
    exact max_le (by norm_num) (min_le_left _ _)

/-! ## Claim C1 -/

/-- C1: every 'move' message mutates exactly the targeted player; the
destination is the requested coordinates clamped componentwise into
`[-25, 25]` (never rejected), with `moving = true`,
`animationState = "walk"` and the timestamp set to the current time; in
particular `MoveIntent(100, 0)` stores destination `(25, 0)`. -/
theorem C1_move_clamps_and_flags (g : GameRoomState) (sid : String) (p : Player)
    (mx mz : ℚ) (now : ℤ) :
    lookupPlayer (onMoveMsg g sid mx mz now).players sid
        = (lookupPlayer g.players sid).map (fun q => movePlayer q mx mz now)
      ∧ (movePlayer p mx mz now).destX = max (-25) (min 25 mx)
      ∧ (movePlayer p mx mz now).destZ = max (-25) (min 25 mz)
      ∧ -25 ≤ (movePlayer p mx mz now).destX ∧ (movePlayer p mx mz now).destX ≤ 25
      ∧ -25 ≤ (movePlayer p mx mz now).destZ ∧ (movePlayer p mx mz now).destZ ≤ 25
      ∧ (movePlayer p mx mz now).isMoving = true
      ∧ (movePlayer p mx mz now).animation = "walk"
      ∧ (movePlayer p mx mz now).timestamp = now
      ∧ (movePlayer p 100 0 now).destX = 25 ∧ (movePlayer p 100 0 now).destZ = 0 := by
  obtain ⟨hX, hX1, hX2⟩ := clampToArea_mem mx
  obtain ⟨hZ, hZ1, hZ2⟩ := clampToArea_mem mz
  refine ⟨?_, hX, hZ, hX1, hX2, hZ1, hZ2, rfl, rfl, rfl, ?_, ?_⟩
  · rw [onMoveMsg, lookupPlayer_updatePlayer, if_pos rfl]
  · show clampToArea 100 = 25
    rw [(clampToArea_mem 100).1]; norm_num
  · show clampToArea 0 = 0
    rw [(clampToArea_mem 0).1]; norm_num

/-! ## Claim C7 -/

/-- C7 counterexample: the 'stop' handler is an accepted mutation (it
flips `moving` and the animation) yet does not touch the timestamp: after
a move at time 100 followed by a stop, the stored timestamp still reads
100, so the timestamp is neither set on every accepted mutation nor
strictly increasing across them. -/
theorem C7_stop_keeps_timestamp :
    (stopPlayer (movePlayer defaultPlayer 0 0 100)).timestamp = 100
      ∧ (stopPlayer (movePlayer defaultPlayer 0 0 100)).isMoving = false
      ∧ (stopPlayer (movePlayer defaultPlayer 0 0 100)).animation = "idle"
      ∧ (stopPlayer (movePlayer defaultPlayer 0 0 100)).timestamp
          = (movePlayer defaultPlayer 0 0 100).timestamp := by
  refine ⟨rfl, rfl, rfl, rfl⟩

/-- C7 (amended): the authority stamps `lastUpdateTimestamp := now` on
accepted move and pose intents, while the stop handler leaves the
timestamp unchanged; consequently the timestamp strictly increases across
accepted move/pose mutations whenever the wall clock does. -/
theorem C7_timestamps_amended (p : Player) (mx my mz rotY : ℚ) (now now2 : ℤ) :
    (movePlayer p mx mz now).timestamp = now
      ∧ (positionPlayer p mx my mz rotY now).timestamp = now
      ∧ (stopPlayer p).timestamp = p.timestamp
      ∧ (now < now2 →
          (positionPlayer p mx my mz rotY now).timestamp
              < (movePlayer (positionPlayer p mx my mz rotY now) mx mz now2).timestamp
            ∧ (movePlayer p mx mz now).timestamp
              < (positionPlayer (movePlayer p mx mz now) mx my mz rotY now2).timestamp) := by
  exact ⟨rfl, rfl, rfl, fun h => ⟨h, h⟩⟩

/-- C7 witness: the amended theorem applied at a concrete pose-then-move
pair of mutations at clock times 1 and 2. -/
theorem C7_timestamps_witness :
    ((1 : ℤ) < 2)
      ∧ (positionPlayer defaultPlayer 0 0 0 0 1).timestamp
          < (movePlayer (positionPlayer defaultPlayer 0 0 0 0 1) 0 0 2).timestamp := by
  exact ⟨by norm_num,
    ((C7_timestamps_amended defaultPlayer 0 0 0 0 1 2).2.2.2 (by norm_num)).1⟩

/-! ## Claim C6 -/

/-- C6 counterexample: in a fresh room the authority round-robins the
avatar model path, not `profileIndex`; the second joiner's `profileIndex`
is 0, not the claimed 1. -/
theorem C6_profileIndex_not_roundrobin :
    (lookupPlayer (onJoin (onJoin initRoom "p1" none none 0 0) "p2" none none 0 0).players
        "p2").map Player.profileIndex = some 0
      ∧ (0 : ℕ) ≠ 1 := by
  exact ⟨rfl, by norm_num⟩

/-- C6 (amended): at join the authority assigns `modelPath` round-robin
over the 2-entry model table whenever the client requests none (advancing
the shared counter), while `profileIndex` is never assigned and keeps its
schema default 0 for every joiner; both fields are untouched by the
move/pose/stop handlers.  Concretely: in a fresh room the first joiner
gets model 0, the second model 1, and a third wraps back to model 0,
while all three keep `profileIndex = 0`. -/
theorem C6_join_assignment_amended (g : GameRoomState) (sid : String)
    (nameOpt : Option String) (rx rz mx my mz rotY : ℚ) (now : ℤ) (p : Player) :
    ((lookupPlayer (onJoin g sid nameOpt none rx rz).players sid).map Player.profileIndex
        = some 0
      ∧ (lookupPlayer (onJoin g sid nameOpt none rx rz).players sid).map Player.modelPath
        = some (AVAILABLE_MODELS.getD (g.modelIndex % AVAILABLE_MODELS.length) "")
      ∧ (onJoin g sid nameOpt none rx rz).modelIndex = g.modelIndex + 1)
    ∧ ((movePlayer p mx mz now).profileIndex = p.profileIndex
      ∧ (positionPlayer p mx my mz rotY now).profileIndex = p.profileIndex
      ∧ (stopPlayer p).profileIndex = p.profileIndex
      ∧ (movePlayer p mx mz now).modelPath = p.modelPath
      ∧ (positionPlayer p mx my mz rotY now).modelPath = p.modelPath
      ∧ (stopPlayer p).modelPath = p.modelPath)
    ∧ ((lookupPlayer (onJoin (onJoin initRoom "p1" none none 0 0) "p2" none none 0 0).players
          "p1").map Player.modelPath = some "/models/GreenGuy_Animated.glb"
      ∧ (lookupPlayer (onJoin (onJoin initRoom "p1" none none 0 0) "p2" none none 0 0).players
          "p2").map Player.modelPath = some "/models/BusinessMan.glb"
      ∧ (lookupPlayer (onJoin (onJoin initRoom "p1" none none 0 0) "p2" none none 0 0).players
          "p1").map Player.profileIndex = some 0
      ∧ (lookupPlayer
            (onJoin (onJoin (onJoin initRoom "p1" none none 0 0) "p2" none none 0 0)
              "p3" none none 0 0).players "p3").map Player.modelPath
          = some "/models/GreenGuy_Animated.glb") := by
  refine ⟨⟨?_, ?_, rfl⟩, ⟨rfl, rfl, rfl, rfl, rfl, rfl⟩, rfl, rfl, rfl, rfl⟩
  · rw [onJoin]
    simp only [lookupPlayer_cons_self]
    rfl
  · rw [onJoin]
    simp only [lookupPlayer_cons_self]
    rfl

/-! ## Claim C2 -/

theorem lookupPlayer_cons (kv : String × Player) (rest : List (String × Player))
    (sid2 : String) :
    lookupPlayer (kv :: rest) sid2
      = if kv.1 = sid2 then some kv.2 else lookupPlayer rest sid2 := rfl

theorem applySOp_preserves_bounds (g : GameRoomState) (op : SOp)
    (hg : RoomInBounds g) (hop : validSOp op = true) :
    RoomInBounds (applySOp g op) := by
  cases op with
  | join sid nameOpt modelOpt rx rz =>
      simp only [validSOp, Bool.and_eq_true, decide_eq_true_eq] at hop
      obtain ⟨⟨⟨h1, h2⟩, h3⟩, h4⟩ := hop
      intro sid2 q hq
      simp only [applySOp, onJoin] at hq
      rw [lookupPlayer_cons] at hq
      split at hq
      · cases hq
        refine ⟨?_, ?_, ?_, ?_⟩ <;> show _ ≤ _ <;> simp only [spawnCoord] <;>
          nlinarith
      · exact hg sid2 q hq
  | move sid mx mz now =>
      intro sid2 q hq
      simp only [applySOp, onMoveMsg] at hq
      rw [lookupPlayer_updatePlayer] at hq
      split at hq
      · obtain ⟨q0, hq0, rfl⟩ := Option.map_eq_some'.mp hq
        have := hg sid2 q0 hq0
        unfold inBounds movePlayer at *
        exact this
      · exact hg sid2 q hq
  | pose sid mx my mz rotY now =>
      simp only [validSOp, Bool.and_eq_true, decide_eq_true_eq] at hop
      obtain ⟨⟨⟨h1, h2⟩, h3⟩, h4⟩ := hop
      intro sid2 q hq
      simp only [applySOp, onPositionMsg] at hq
      rw [lookupPlayer_updatePlayer] at hq
      split at hq
      · obtain ⟨q0, hq0, rfl⟩ := Option.map_eq_some'.mp hq
        exact ⟨h1, h2, h3, h4⟩
      · exact hg sid2 q hq
  | stop sid =>
      intro sid2 q hq
      simp only [applySOp, onStopMsg] at hq
      rw [lookupPlayer_updatePlayer] at hq
      split at hq
      · obtain ⟨q0, hq0, rfl⟩ := Option.map_eq_some'.mp hq
        have := hg sid2 q0 hq0
        unfold inBounds stopPlayer at *
        exact this
      · exact hg sid2 q hq
  | leave sid =>
      intro sid2 q hq
      simp only [applySOp, onLeave] at hq
      rw [lookupPlayer_filter_ne] at hq
      split at hq
      · exact absurd hq (by simp)
      · exact hg sid2 q hq

theorem foldl_preserves_bounds (ops : List SOp) :
    ∀ g : GameRoomState, RoomInBounds g → (∀ op ∈ ops, validSOp op = true) →
      RoomInBounds (ops.foldl applySOp g) := by
  induction ops with
  | nil => exact fun g hg _ => hg
  | cons op rest ih =>
      intro g hg hops
      exact ih (applySOp g op)
        (applySOp_preserves_bounds g op hg (hops op (List.mem_cons_self op rest)))
        (fun op2 h2 => hops op2 (List.mem_cons_of_mem op h2))

/-- C2 counterexample: the 'position' handler trusts the client verbatim,
so a reachable state escapes the world bounds: after a join, a single
pose intent reporting `x = 1000` is stored as-is, and `1000 ∉ [-25, 25]`. -/
theorem C2_pose_escapes_bounds :
    (lookupPlayer
        (runOps [SOp.join "s1" none none (1 / 2) (1 / 2),
                 SOp.pose "s1" 1000 0 0 0 5]).players "s1").map Player.x
      = some 1000
      ∧ ¬ ((-25 : ℚ) ≤ 1000 ∧ (1000 : ℚ) ≤ 25) := by
  constructor
  · rfl
  · intro h
    exact absurd h.2 (by norm_num)

/-- C2 (amended): along any operation sequence whose pose intents report
in-bounds `x`/`z` coordinates (and whose spawn draws lie in `[0, 1)`, as
`Math.random` guarantees), every player of every reachable canonical
state stays inside the world bounds `[-25, 25]` on both ground axes: the
spawn lands in `[-5, 5]`, move intents only touch the (clamped)
destination, and stop/leave never move anyone.  Unconstrained pose
intents are excluded — the authority stores them verbatim. -/
theorem C2_bounds_inv_amended (ops : List SOp)
    (h : ∀ op ∈ ops, validSOp op = true) : RoomInBounds (runOps ops) := by
  refine foldl_preserves_bounds ops initRoom ?_ h
  intro sid p hp
  simp [initRoom, lookupPlayer] at hp

/-- C2 witness: a concrete valid run (join, clamped move, in-bounds pose,
stop) whose surviving player the amended theorem places inside the world
bounds. -/
theorem C2_bounds_inv_witness :
    ([SOp.join "a" none none 0 (1 / 2), SOp.move "a" 100 0 3,
      SOp.pose "a" 7 0 (-7) 0 4, SOp.stop "a"].all validSOp = true)
      ∧ ∃ p, lookupPlayer
          (runOps [SOp.join "a" none none 0 (1 / 2), SOp.move "a" 100 0 3,
            SOp.pose "a" 7 0 (-7) 0 4, SOp.stop "a"]).players "a" = some p
          ∧ inBounds p := by
  have hall : [SOp.join "a" none none 0 (1 / 2), SOp.move "a" 100 0 3,
      SOp.pose "a" 7 0 (-7) 0 4, SOp.stop "a"].all validSOp = true := by
    with_unfolding_all rfl
  have hlook : lookupPlayer
      (runOps [SOp.join "a" none none 0 (1 / 2), SOp.move "a" 100 0 3,
        SOp.pose "a" 7 0 (-7) 0 4, SOp.stop "a"]).players "a"
      = some { id := "a", name := "Player-a",
               modelPath := "/models/GreenGuy_Animated.glb",
               x := 7, y := 0, z := -7, rotationY := 0, animation := "idle",
               destX := 25, destZ := 0, isMoving := false, timestamp := 4,
               profileIndex := 0 } := by with_unfolding_all rfl
  refine ⟨hall, ⟨_, hlook, ?_⟩⟩
  exact C2_bounds_inv_amended _ (List.all_eq_true.mp hall) "a" _ hlook

/-! ## Claim C3 -/

/-- C3 counterexample: `followPath` — the instant movement starts — sends
no message at all, in particular no forced pose update; the claimed
start-of-movement forced update does not exist in the code. -/
theorem C3_no_pose_at_start :
    (followPath initPC [⟨5, 0, 5⟩]).2 = []
      ∧ countPose (followPath initPC [⟨5, 0, 5⟩]).2 = 0 := ⟨rfl, rfl⟩

/-- C3 (amended): while moving, unforced pose broadcasts are throttled to
at most one per `positionUpdateInterval` (50 ms) — a call inside the
window sends nothing, a call outside it sends exactly one pose update and
restarts the window, and two unforced calls less than one interval apart
can never both emit.  Movement stop always flushes exactly one forced
pose update (plus the stop intent) regardless of the window.  Movement
start (`followPath`) emits no pose update; observers rely on the reliable
move intent and the next throttled update instead. -/
theorem C3_throttle_amended (st : PCState) (now now2 : ℚ) (path : List Vec3) :
    (followPath st path).2 = []
      ∧ countPose (stopMovement st now).2 = 1
      ∧ CMsg.stop ∈ (stopMovement st now).2
      ∧ (now - st.lastPositionUpdate < st.positionUpdateInterval →
          (broadcastPosition st false now).2 = [])
      ∧ (st.positionUpdateInterval ≤ now - st.lastPositionUpdate →
          countPose (broadcastPosition st false now).2 = 1
            ∧ (broadcastPosition st false now).1.lastPositionUpdate = now)
      ∧ countPose (broadcastPosition st true now).2 = 1
      ∧ (st.positionUpdateInterval ≤ now - st.lastPositionUpdate →
          now2 - now < st.positionUpdateInterval →
          (broadcastPosition (broadcastPosition st false now).1 false now2).2 = []) := by
  refine ⟨rfl, rfl, List.mem_cons_self _ _, ?_, ?_, rfl, ?_⟩
  · intro h
    simp [broadcastPosition, h]
  · intro h
    rw [broadcastPosition]
    simp only [Bool.not_false, Bool.true_and, decide_eq_true_eq]
    rw [if_neg (not_lt.mpr h)]
    exact ⟨rfl, rfl⟩
  · intro h1 h2
    have hst : (broadcastPosition st false now).1
        = { st with lastPositionUpdate := now } := by
      rw [broadcastPosition]
      simp only [Bool.not_false, Bool.true_and, decide_eq_true_eq]
      rw [if_neg (not_lt.mpr h1)]
    rw [hst]
    simp [broadcastPosition, h2]

/-- C3 witness: with the constructor state (interval 50 ms, last update
at 0), an unforced broadcast at t = 60 emits, and a second unforced
broadcast at t = 100 — inside the fresh window — emits nothing. -/
theorem C3_throttle_witness :
    (initPC.positionUpdateInterval ≤ 60 - initPC.lastPositionUpdate)
      ∧ (broadcastPosition (broadcastPosition initPC false 60).1 false 100).2 = [] := by
  refine ⟨by norm_num [initPC], ?_⟩
  exact (C3_throttle_amended initPC 60 100 []).2.2.2.2.2.2
    (by norm_num [initPC]) (by norm_num [initPC, broadcastPosition])

/-! ## Claim C4 -/

theorem distSq_nonneg (p t : Vec3) : 0 ≤ distSq p t := by
  unfold distSq
  positivity

theorem distSq_lerp_step (p t : Vec3) :
    distSq (lerpV p t (3 / 20)) t = 289 / 400 * distSq p t := by
  unfold distSq lerpV
  ring

theorem iterLerp_distSq (t : Vec3) :
    ∀ (n : ℕ) (p : Vec3),
      distSq (iterLerp n p t) t = (289 / 400) ^ n * distSq p t := by
  intro n
  induction n with
  | zero => intro p; simp [iterLerp]
  | succ n ih =>
      intro p
      rw [iterLerp, ih, distSq_lerp_step]
      ring

theorem lerp_scalar_between (a b : ℚ) :
    min a b ≤ a + (b - a) * (3 / 20) ∧ a + (b - a) * (3 / 20) ≤ max a b := by
  rcases le_total a b with h | h
  · rw [min_eq_left h, max_eq_right h]
    constructor <;> nlinarith
  · rw [min_eq_right h, max_eq_left h]
    constructor <;> nlinarith

/-- C4: with a loaded model, the default 0.15 factor and the
dead-reckoning branch not firing (prediction off, update fresh, or
estimated speed at most the 0.01 threshold — so the target really is
fixed), the frame update leaves the target unchanged and lerps the
rendered position 0.15 of the way toward it; each step scales the squared
rendered-to-target distance by exactly (17/20)² = 289/400, so the
distance never increases, each rendered coordinate stays between its old
value and the target (no overshoot), and the iterated distance descends
below any positive bound. -/
theorem C4_interp_convergence (wrapPi : ℚ → ℚ) (st : RPState) (dt now : ℚ)
    (hload : st.modelLoaded = true)
    (hspeed : st.interpolationSpeed = 3 / 20)
    (hnp : st.enablePrediction = false ∨ now - st.lastUpdateTime ≤ 100
      ∨ normSq st.velocity ≤ 1 / 10000) :
    (rpFrameUpdate wrapPi st dt now).targetPosition = st.targetPosition
      ∧ (rpFrameUpdate wrapPi st dt now).position
          = lerpV st.position st.targetPosition (3 / 20)
      ∧ distSq (lerpV st.position st.targetPosition (3 / 20)) st.targetPosition
          = 289 / 400 * distSq st.position st.targetPosition
      ∧ distSq (lerpV st.position st.targetPosition (3 / 20)) st.targetPosition
          ≤ distSq st.position st.targetPosition
      ∧ (min st.position.x st.targetPosition.x
            ≤ (lerpV st.position st.targetPosition (3 / 20)).x
          ∧ (lerpV st.position st.targetPosition (3 / 20)).x
            ≤ max st.position.x st.targetPosition.x)
      ∧ (min st.position.y st.targetPosition.y
            ≤ (lerpV st.position st.targetPosition (3 / 20)).y
          ∧ (lerpV st.position st.targetPosition (3 / 20)).y
            ≤ max st.position.y st.targetPosition.y)
      ∧ (min st.position.z st.targetPosition.z
            ≤ (lerpV st.position st.targetPosition (3 / 20)).z
          ∧ (lerpV st.position st.targetPosition (3 / 20)).z
            ≤ max st.position.z st.targetPosition.z)
      ∧ (∀ n : ℕ, distSq (iterLerp n st.position st.targetPosition) st.targetPosition
          = (289 / 400) ^ n * distSq st.position st.targetPosition)
      ∧ (∀ ε : ℚ, 0 < ε →
          ∃ n : ℕ, distSq (iterLerp n st.position st.targetPosition)
            st.targetPosition < ε) := by
  have hcond : (st.enablePrediction && decide (100 < now - st.lastUpdateTime)
      && decide (1 / 10000 < normSq st.velocity)) = false := by
    rcases hnp with h | h | h
    · simp only [h, Bool.false_and]
    · have hd : decide (100 < now - st.lastUpdateTime) = false :=
        decide_eq_false (not_lt.mpr h)
      simp only [hd, Bool.and_false, Bool.false_and]
    · have hd : decide (1 / 10000 < normSq st.velocity) = false :=
        decide_eq_false (not_lt.mpr h)
      simp only [hd, Bool.and_false]
  have hupd : rpFrameUpdate wrapPi st dt now
      = { st with
          targetPosition := st.targetPosition,
          position := lerpV st.position st.targetPosition (3 / 20),
          rotation := st.rotation
            + wrapPi (st.targetRotation - st.rotation) * (3 / 20) } := by
    unfold rpFrameUpdate
    rw [hload, hcond, hspeed]
    simp
  refine ⟨by rw [hupd], by rw [hupd], distSq_lerp_step st.position st.targetPosition,
    ?_, ?_, ?_, ?_, fun n => iterLerp_distSq st.targetPosition n st.position, ?_⟩
  · rw [distSq_lerp_step]
    nlinarith [distSq_nonneg st.position st.targetPosition]
  · exact lerp_scalar_between st.position.x st.targetPosition.x
  · exact lerp_scalar_between st.position.y st.targetPosition.y
  · exact lerp_scalar_between st.position.z st.targetPosition.z
  · intro ε hε
    rcases eq_or_lt_of_le (distSq_nonneg st.position st.targetPosition) with hd | hd
    · exact ⟨0, by rw [iterLerp_distSq, pow_zero, one_mul, ← hd]; exact hε⟩
    · obtain ⟨n, hn⟩ := exists_pow_lt_of_lt_one (div_pos hε hd)
        (by norm_num : (289 / 400 : ℚ) < 1)
      refine ⟨n, ?_⟩
      rw [iterLerp_distSq]
      calc (289 / 400 : ℚ) ^ n * distSq st.position st.targetPosition
          < ε / distSq st.position st.targetPosition
              * distSq st.position st.targetPosition :=
            mul_lt_mul_of_pos_right hn hd
        _ = ε := div_mul_cancel₀ ε (ne_of_gt hd)

/-- C4 witness: the theorem applied to a loaded remote player 20 units
from its (fixed) target with zero estimated velocity; the iterated
smoothing step drops the squared distance below 1. -/
theorem C4_interp_convergence_witness :
    ({ initRP with modelLoaded := true, position := ⟨20, 0, 0⟩ } : RPState).modelLoaded
        = true
      ∧ (0 : ℚ) < 1
      ∧ ∃ n : ℕ, distSq
          (iterLerp n
            ({ initRP with modelLoaded := true, position := ⟨20, 0, 0⟩ } : RPState).position
            ({ initRP with modelLoaded := true, position := ⟨20, 0, 0⟩ } : RPState).targetPosition)
          ({ initRP with modelLoaded := true, position := ⟨20, 0, 0⟩ } : RPState).targetPosition
          < 1 := by
  refine ⟨rfl, by norm_num, ?_⟩
  exact (C4_interp_convergence id
      { initRP with modelLoaded := true, position := ⟨20, 0, 0⟩ } 1 0
      rfl rfl
      (Or.inr (Or.inr (by norm_num [initRP, normSq])))).2.2.2.2.2.2.2.2
    1 (by norm_num)

/-! ## Claim C8 -/

/-- C8 counterexample: the LiveKit-path `receiveUpdate` has no pending
store — an animation update ("Dance") arriving before the model finishes
loading is neither remembered nor applied: `pendingAnimation` stays
`none`, and once loading completes the player starts the default walk
clip instead of the requested "Dance" (whose clip the asset does
contain). -/
theorem C8_receiveUpdate_drops :
    (receiveUpdate initRP ⟨0, 0, 0⟩ 0 "Dance" 100).pendingAnimation = none
      ∧ (receiveUpdate initRP ⟨0, 0, 0⟩ 0 "Dance" 100).currentAnimation = "idle"
      ∧ (loadModelComplete (receiveUpdate initRP ⟨0, 0, 0⟩ 0 "Dance" 100)
          ["Dance_Loop", "Standard_Walk", "Idle"]).currentAnimation = "walk"
      ∧ ("walk" : String) ≠ "Dance" := by
  refine ⟨by with_unfolding_all rfl, by with_unfolding_all rfl,
    by with_unfolding_all rfl, by decide⟩

/-- C8 (amended): the never-drop guarantee holds on the Colyseus schema
path: when the model has not finished loading, `updateFromSchema` stores
a differing (non-empty) reported animation in `pendingAnimation` without
touching the current animation; the load-completion step then plays
exactly the pending animation and clears the store; when the model is
already loaded a differing animation is played immediately.  Concretely, a
"Dance" request arriving before load completion is played once loading
completes.  The legacy `receiveUpdate` path lacks the pending store (see
the counterexample). -/
theorem C8_pending_amended (st : RPState) (a : String) (sx sy sz rotY now : ℚ)
    (clips : List String) :
    (st.modelLoaded = false → a ≠ "" → a ≠ st.currentAnimation →
        (updateFromSchema st sx sy sz rotY a now).pendingAnimation = some a
          ∧ (updateFromSchema st sx sy sz rotY a now).currentAnimation
              = st.currentAnimation)
      ∧ (st.pendingAnimation = some a →
          loadModelComplete st clips
            = { playAnimation
                  { st with
                    animationGroups := clips, modelLoaded := true,
                    playingClip := none } a with
                pendingAnimation := none })
      ∧ (st.modelLoaded = true → a ≠ "" → a ≠ st.currentAnimation →
          updateFromSchema st sx sy sz rotY a now
            = { playAnimation
                  { st with
                    targetPosition := ⟨sx, sy, sz⟩,
                    targetRotation := rotY } a with
                lastUpdateTime := now })
      ∧ (loadModelComplete (updateFromSchema initRP 0 0 0 0 "Dance" 100)
            ["Dance_Loop", "Standard_Walk", "Idle"]).currentAnimation = "Dance"
      ∧ (loadModelComplete (updateFromSchema initRP 0 0 0 0 "Dance" 100)
            ["Dance_Loop", "Standard_Walk", "Idle"]).pendingAnimation = none := by
  refine ⟨?_, ?_, ?_, by with_unfolding_all rfl, by with_unfolding_all rfl⟩
  · intro h1 h2 h3
    constructor <;>
      simp [updateFromSchema, h1, h2, fun hc => h3 hc]
  · intro h
    simp [loadModelComplete, h]
  · intro h1 h2 h3
    simp [updateFromSchema, h1, h2, fun hc => h3 hc]

/-- C8 witness: the amended theorem applied to the fresh (unloaded)
interpolator receiving a "Dance" schema update. -/
theorem C8_pending_witness :
    initRP.modelLoaded = false
      ∧ ("Dance" : String) ≠ ""
      ∧ ("Dance" : String) ≠ initRP.currentAnimation
      ∧ (updateFromSchema initRP 1 2 3 4 "Dance" 7).pendingAnimation
          = some "Dance" := by
  refine ⟨rfl, by decide, by decide, ?_⟩
  exact ((C8_pending_amended initRP "Dance" 1 2 3 4 7 []).1 rfl (by decide)
    (by decide)).1

/-! ## Claim C5 -/

/-- C5 counterexample: a never-initialized manager does not return null —
`findPath` falls back to the direct simple path `[end]`, so "returns null
only when never initialized" mischaracterizes the code: the null result
is produced (if ever) in the initialized, blocked-destination case. -/
theorem C5_uninitialized_not_null :
    findPath (fun _ => 0) (fun _ => 0) (fun v => v) ⟨none, false⟩ v0 ⟨3, 0, 0⟩
        = some [⟨3, 0, 0⟩]
      ∧ (some [(⟨3, 0, 0⟩ : Vec3)] : Option (List Vec3)) ≠ none := by
  exact ⟨rfl, by simp⟩

/-- C5 (amended): an uninitialized manager never yields null — it returns
the fallback simple path; when the manager is initialized and the
destination is blocked, the destination is first snapped via the
closest-free search, and the result is null exactly when the snapped
point is farther than 5 units (squared distance above 25) from the
request; conversely every null result arises this way.  (These hold for
every value of the trigonometric/normalize primitives.) -/
theorem C5_findPath_null_amended (cos8 sin8 : ℕ → ℚ) (nrm : Vec3 → Vec3)
    (m : PFManager) (s e : Vec3) :
    (m.isInitialized = false →
        findPath cos8 sin8 nrm m s e = some (createSimplePath nrm m.builder s e))
      ∧ (∀ obs, m.builder = some obs → m.isInitialized = true →
          isPositionBlocked obs e (3 / 2) = true →
          (findPath cos8 sin8 nrm m s e = none
            ↔ 25 < distSq (closestWalkable cos8 sin8 m.builder e 5) e))
      ∧ (findPath cos8 sin8 nrm m s e = none →
          m.isInitialized = true
            ∧ (∃ obs, m.builder = some obs ∧ isPositionBlocked obs e (3 / 2) = true)
            ∧ 25 < distSq (closestWalkable cos8 sin8 m.builder e 5) e) := by
  refine ⟨?_, ?_, ?_⟩
  · intro h
    simp [findPath, h]
  · intro obs hb hi hblk
    rw [findPath, hi, hb]
    simp only [Bool.not_true, Bool.false_eq_true, if_false, hblk, if_true]
    by_cases hd : 25 < distSq (closestWalkable cos8 sin8 (some obs) e 5) e
    · rw [if_pos hd]
      simp [hd, hb]
    · rw [if_neg hd]
      simp [hd, hb]
  · intro h
    by_cases hi : m.isInitialized = true
    · rcases hm : m.builder with _ | obs
      · rw [findPath, hi, hm] at h
        simp at h
      · have hblk : isPositionBlocked obs e (3 / 2) = true := by
          by_contra hblk
          rw [findPath, hi, hm] at h
          simp only [Bool.not_true, Bool.false_eq_true, if_false,
            Bool.not_eq_true] at h
          rw [if_neg (by simpa using hblk)] at h
          exact absurd h (by simp)
        have hd : 25 < distSq (closestWalkable cos8 sin8 (some obs) e 5) e := by
          by_contra hd
          rw [findPath, hi, hm] at h
          simp only [Bool.not_true, Bool.false_eq_true, if_false, hblk,
            if_true] at h
          rw [if_neg hd] at h
          exact absurd h (by simp)
        exact ⟨hi, ⟨obs, rfl, hblk⟩, hd⟩
    · have hfalse : m.isInitialized = false := by
        cases hval : m.isInitialized
        · rfl
        · exact absurd hval hi
      rw [findPath, hfalse] at h
      simp at h

/-- C5 witness: the amended theorem applied to an initialized manager
whose single obstacle (radius 1, centred at the origin) blocks the
requested destination, instantiating the null-characterization
equivalence. -/
theorem C5_findPath_null_witness :
    isPositionBlocked [⟨v0, 1⟩] v0 (3 / 2) = true
      ∧ ((⟨some [⟨v0, 1⟩], true⟩ : PFManager).isInitialized = true)
      ∧ (findPath (fun _ => 0) (fun _ => 0) (fun v => v)
            ⟨some [⟨v0, 1⟩], true⟩ v0 v0 = none
          ↔ 25 < distSq
              (closestWalkable (fun _ => 0) (fun _ => 0) (some [⟨v0, 1⟩]) v0 5) v0) := by
  refine ⟨by with_unfolding_all rfl, rfl, ?_⟩
  exact (C5_findPath_null_amended (fun _ => 0) (fun _ => 0) (fun v => v)
      ⟨some [⟨v0, 1⟩], true⟩ v0 v0).2.1 [⟨v0, 1⟩] rfl rfl
    (by with_unfolding_all rfl)

/-! ## Claims C9 and C10: path smoothing -/

theorem losScan_ge (b : Option (List Obstacle)) (path : List Vec3) (c : ℕ) :
    ∀ i, c + 1 ≤ losScan b path c i := by
  intro i
  induction i with
  | zero => exact le_refl _
  | succ i ih =>
      rw [losScan]
      split
      · exact le_refl _
      · rename_i h1
        split
        · omega
        · exact ih

theorem losScan_le (b : Option (List Obstacle)) (path : List Vec3) (c : ℕ) :
    ∀ i, losScan b path c i ≤ max (c + 1) i := by
  intro i
  induction i with
  | zero => simp [losScan]
  | succ i ih =>
      rw [losScan]
      split
      · exact le_max_left _ _
      · split
        · exact le_max_right _ _
        · exact le_trans ih (max_le_max (le_refl _) (Nat.le_succ i))

theorem losScan_spec (b : Option (List Obstacle)) (path : List Vec3) (c : ℕ) :
    ∀ i, losScan b path c i = c + 1
      ∨ hasLineOfSight b (path.getD c v0) (path.getD (losScan b path c i) v0)
          = true := by
  intro i
  induction i with
  | zero => exact Or.inl rfl
  | succ i ih =>
      rw [losScan]
      split
      · exact Or.inl rfl
      · split
        · rename_i h1 h2
          exact Or.inr h2
        · exact ih

theorem smoothGo_stop (b : Option (List Obstacle)) (path : List Vec3)
    (fuel c : ℕ) (h : ¬ c < path.length - 1) : smoothGo b path fuel c = [] := by
  cases fuel
  · rfl
  · rw [smoothGo, if_neg h]

theorem getD_eq_getElem_of_lt (l : List Vec3) (n : ℕ) (h : n < l.length) :
    l.getD n v0 = l[n] := by
  rw [List.getD_eq_getElem?_getD, List.getElem?_eq_getElem h]
  rfl

theorem smoothGo_sublist (b : Option (List Obstacle)) (path : List Vec3) :
    ∀ fuel c, path.length - 1 - c ≤ fuel →
      (smoothGo b path fuel c).Sublist (path.drop (c + 1)) := by
  intro fuel
  induction fuel with
  | zero =>
      intro c h
      have h0 : smoothGo b path 0 c = [] := rfl
      rw [h0]
      exact List.nil_sublist _
  | succ fuel ih =>
      intro c h
      by_cases hc : c < path.length - 1
      · simp only [smoothGo, hc, if_true]
        have hge : c + 1 ≤ losScan b path c (path.length - 1) :=
          losScan_ge b path c _
        have hle : losScan b path c (path.length - 1) ≤ path.length - 1 := by
          have h1 := losScan_le b path c (path.length - 1)
          have h2 : max (c + 1) (path.length - 1) = path.length - 1 :=
            max_eq_right (by omega)
          omega
        have hflen : losScan b path c (path.length - 1) < path.length := by omega
        have h1 : (smoothGo b path fuel (losScan b path c (path.length - 1))).Sublist
            (path.drop (losScan b path c (path.length - 1) + 1)) :=
          ih _ (by omega)
        have h2 : path.getD (losScan b path c (path.length - 1)) v0
              :: path.drop (losScan b path c (path.length - 1) + 1)
            = path.drop (losScan b path c (path.length - 1)) := by
          rw [getD_eq_getElem_of_lt path _ hflen]
          exact (List.drop_eq_getElem_cons hflen).symm
        have s1 : (path.getD (losScan b path c (path.length - 1)) v0
              :: smoothGo b path fuel (losScan b path c (path.length - 1))).Sublist
            (path.getD (losScan b path c (path.length - 1)) v0
              :: path.drop (losScan b path c (path.length - 1) + 1)) :=
          List.Sublist.cons₂ _ h1
        have s3 : (path.drop (losScan b path c (path.length - 1))).Sublist
            (path.drop (c + 1)) := by
          have h3 : path.drop (losScan b path c (path.length - 1))
              = List.drop (losScan b path c (path.length - 1) - (c + 1))
                  (path.drop (c + 1)) := by
            rw [List.drop_drop]
            congr 1
            omega
          rw [h3]
          exact List.drop_sublist _ _
        exact (h2 ▸ s1).trans s3
      · rw [smoothGo_stop b path _ c hc]
        exact List.nil_sublist _

theorem smoothGo_getLast (b : Option (List Obstacle)) (path : List Vec3) :
    ∀ fuel c, path.length - 1 - c ≤ fuel → c < path.length - 1 →
      (smoothGo b path fuel c).getLast?
        = some (path.getD (path.length - 1) v0) := by
  intro fuel
  induction fuel with
  | zero => intro c h hc; omega
  | succ fuel ih =>
      intro c h hc
      simp only [smoothGo, hc, if_true]
      have hge : c + 1 ≤ losScan b path c (path.length - 1) :=
        losScan_ge b path c _
      have hle : losScan b path c (path.length - 1) ≤ path.length - 1 := by
        have h1 := losScan_le b path c (path.length - 1)
        have h2 : max (c + 1) (path.length - 1) = path.length - 1 :=
          max_eq_right (by omega)
        omega
      by_cases hfc : losScan b path c (path.length - 1) < path.length - 1
      · have htail := ih (losScan b path c (path.length - 1)) (by omega) hfc
        rcases hl : smoothGo b path fuel (losScan b path c (path.length - 1))
          with _ | ⟨x, xs⟩
        · rw [hl] at htail
          simp at htail
        · rw [hl] at htail
          rw [List.getLast?_cons_cons]
          exact htail
      · have hfeq : losScan b path c (path.length - 1) = path.length - 1 := by
          omega
        rw [smoothGo_stop b path fuel (losScan b path c (path.length - 1))
          (by omega)]
        rw [hfeq]
        rfl

theorem segmentsClear_iff (b : Option (List Obstacle)) :
    ∀ l : List Vec3, segmentsClear b l = true
      ↔ ∀ j, j + 1 < l.length →
          hasLineOfSight b (l.getD j v0) (l.getD (j + 1) v0) = true := by
  intro l
  induction l with
  | nil => simp [segmentsClear]
  | cons a l ih =>
      cases l with
      | nil => simp [segmentsClear]
      | cons a2 l2 =>
          rw [segmentsClear, Bool.and_eq_true, ih]
          constructor
          · rintro ⟨h1, h2⟩ j hj
            cases j with
            | zero => simpa using h1
            | succ j =>
                have hj2 : j + 1 < (a2 :: l2).length := by
                  simpa using hj
                simpa using h2 j hj2
          · intro h
            refine ⟨?_, fun j hj => ?_⟩
            · simpa using h 0 (by simp)
            · have := h (j + 1) (by simpa using hj)
              simpa using this

theorem smoothGo_chain (b : Option (List Obstacle)) (path : List Vec3)
    (hAdj : ∀ j, j + 1 < path.length →
      hasLineOfSight b (path.getD j v0) (path.getD (j + 1) v0) = true) :
    ∀ fuel c, path.length - 1 - c ≤ fuel → c < path.length - 1 →
      segmentsClear b (path.getD c v0 :: smoothGo b path fuel c) = true := by
  intro fuel
  induction fuel with
  | zero => intro c h hc; omega
  | succ fuel ih =>
      intro c h hc
      simp only [smoothGo, hc, if_true]
      have hge : c + 1 ≤ losScan b path c (path.length - 1) :=
        losScan_ge b path c _
      have hle : losScan b path c (path.length - 1) ≤ path.length - 1 := by
        have h1 := losScan_le b path c (path.length - 1)
        have h2 : max (c + 1) (path.length - 1) = path.length - 1 :=
          max_eq_right (by omega)
        omega
      have hlos : hasLineOfSight b (path.getD c v0)
          (path.getD (losScan b path c (path.length - 1)) v0) = true := by
        rcases losScan_spec b path c (path.length - 1) with hsp | hsp
        · rw [hsp]
          exact hAdj c (by omega)
        · exact hsp
      rw [segmentsClear, Bool.and_eq_true]
      refine ⟨hlos, ?_⟩
      by_cases hfc : losScan b path c (path.length - 1) < path.length - 1
      · exact ih _ (by omega) hfc
      · rw [smoothGo_stop b path fuel _ (by omega)]
        rfl

/-- C9 counterexample: a three-waypoint straight path whose two segment
midpoints are both unblocked, around a single obstacle of radius 1/2 at
(1,0,0).  No pull-taut jump has line of sight, so `smoothPath` keeps the
original adjacent segments without re-checking them — and the surviving
first segment contains a blocked unit-step sample, so the smoothed path
fails the zero-blocked-samples property even though the raw path had zero
blocked midpoints. -/
theorem C9_smooth_blocked_counterexample :
    midpointsFree [⟨⟨1, 0, 0⟩, 1 / 2⟩] [⟨0, 0, 0⟩, ⟨8, 0, 0⟩, ⟨16, 0, 0⟩] = true
      ∧ smoothPath (some [⟨⟨1, 0, 0⟩, 1 / 2⟩]) [⟨0, 0, 0⟩, ⟨8, 0, 0⟩, ⟨16, 0, 0⟩]
          = [⟨0, 0, 0⟩, ⟨8, 0, 0⟩, ⟨16, 0, 0⟩]
      ∧ segmentsClear (some [⟨⟨1, 0, 0⟩, 1 / 2⟩])
          (smoothPath (some [⟨⟨1, 0, 0⟩, 1 / 2⟩]) [⟨0, 0, 0⟩, ⟨8, 0, 0⟩, ⟨16, 0, 0⟩])
          = false := by
  refine ⟨by with_unfolding_all rfl, by with_unfolding_all rfl,
    by with_unfolding_all rfl⟩

/-- C9 (amended): path smoothing never introduces obstacle violations
under the segment-wise hypothesis: if every adjacent segment of the raw
path passes the unit-step line-of-sight check (zero blocked samples at
the 1.0 margin), then every segment of the smoothed path passes it too —
each smoothed segment is either line-of-sight-verified by the scan or an
original adjacent segment.  Zero blocked *midpoints* alone do not
suffice (see the counterexample). -/
theorem C9_smooth_clear_amended (b : Option (List Obstacle)) (path : List Vec3)
    (h : segmentsClear b path = true) :
    segmentsClear b (smoothPath b path) = true := by
  by_cases hlen : path.length ≤ 2
  · rw [smoothPath, if_pos hlen]
    exact h
  · rw [smoothPath, if_neg hlen]
    exact smoothGo_chain b path ((segmentsClear_iff b path).mp h)
      path.length 0 (by omega) (by omega)

/-- C9 witness: a concrete three-waypoint path far away from the only
obstacle; all its segments pass the line-of-sight check, and so do the
smoothed path's. -/
theorem C9_smooth_clear_witness :
    segmentsClear (some [⟨⟨50, 0, 0⟩, 1⟩])
        [⟨0, 0, 0⟩, ⟨1, 0, 0⟩, ⟨2, 0, 0⟩] = true
      ∧ segmentsClear (some [⟨⟨50, 0, 0⟩, 1⟩])
          (smoothPath (some [⟨⟨50, 0, 0⟩, 1⟩]) [⟨0, 0, 0⟩, ⟨1, 0, 0⟩, ⟨2, 0, 0⟩])
          = true := by
  have h : segmentsClear (some [⟨⟨50, 0, 0⟩, 1⟩])
      [⟨0, 0, 0⟩, ⟨1, 0, 0⟩, ⟨2, 0, 0⟩] = true := by with_unfolding_all rfl
  exact ⟨h, C9_smooth_clear_amended (some [⟨⟨50, 0, 0⟩, 1⟩])
    [⟨0, 0, 0⟩, ⟨1, 0, 0⟩, ⟨2, 0, 0⟩] h⟩

/-- C10: `smoothPath` returns inputs of length at most 2 unchanged, and in
general returns a subsequence of the input waypoints in their original
order (no invented waypoints, no reordering) that keeps both endpoints:
its head is the input's head and its last element is the input's last. -/
theorem C10_smoothPath_subsequence (b : Option (List Obstacle))
    (path : List Vec3) :
    (path.length ≤ 2 → smoothPath b path = path)
      ∧ (smoothPath b path).Sublist path
      ∧ (smoothPath b path).head? = path.head?
      ∧ (smoothPath b path).getLast? = path.getLast? := by
  by_cases hlen : path.length ≤ 2
  · rw [smoothPath, if_pos hlen]
    exact ⟨fun _ => rfl, List.Sublist.refl path, rfl, rfl⟩
  · rw [smoothPath, if_neg hlen]
    rcases path with _ | ⟨a, rest⟩
    · simp at hlen
    · refine ⟨fun hc => absurd hc hlen, ?_, ?_, ?_⟩
      · have h1 : (smoothGo b (a :: rest) (a :: rest).length 0).Sublist
            ((a :: rest).drop 1) := smoothGo_sublist b (a :: rest) _ 0 (by omega)
        have h2 : (a :: rest).getD 0 v0 = a := rfl
        rw [h2]
        exact List.Sublist.cons₂ a (by simpa using h1)
      · rfl
      · have hlast : (smoothGo b (a :: rest) (a :: rest).length 0).getLast?
            = some ((a :: rest).getD ((a :: rest).length - 1) v0) := by
          refine smoothGo_getLast b (a :: rest) _ 0 (by omega) ?_
          simp only [List.length_cons] at hlen ⊢
          omega
        rcases hl : smoothGo b (a :: rest) (a :: rest).length 0 with _ | ⟨x, xs⟩
        · rw [hl] at hlast
          simp at hlast
        · rw [hl] at hlast
          rw [List.getLast?_cons_cons, hlast]
          have hlt : (a :: rest).length - 1 < (a :: rest).length := by
            simp
          rw [getD_eq_getElem_of_lt _ _ hlt, List.getLast?_eq_getElem?,
            List.getElem?_eq_getElem hlt]

/-- C10 witness: the theorem applied to a concrete three-waypoint path
(general case) and to a one-waypoint path (the identity case). -/
theorem C10_smoothPath_subsequence_witness :
    (smoothPath none [⟨0, 0, 0⟩, ⟨1, 0, 0⟩, ⟨2, 0, 0⟩]).Sublist
        [(⟨0, 0, 0⟩ : Vec3), ⟨1, 0, 0⟩, ⟨2, 0, 0⟩]
      ∧ ([(⟨5, 0, 5⟩ : Vec3)].length ≤ 2)
      ∧ smoothPath none [⟨5, 0, 5⟩] = [⟨5, 0, 5⟩] := by
  refine ⟨(C10_smoothPath_subsequence none _).2.1, by norm_num, ?_⟩
  exact (C10_smoothPath_subsequence none [⟨5, 0, 5⟩]).1 (by norm_num)

end WorldChars
